import Mathlib

/-!
Verification of the collision-driven particle-decomposition core of the
bevy-jam-6 repository, shallowly embedded in Lean 4.

Conventions of the embedding:
* Rust `f32` scalars are modelled as exact rationals `ℚ`; the square root
  inside `Vec2::normalize` is external to the game logic, so `normalize`
  is threaded through as an explicit function argument where it occurs.
* ECS entities are natural-number identifiers; component stores are
  association lists.
* A Rust `.unwrap()` (or an arithmetic underflow of `usize`) that can fail
  is modelled by an `Option` result, with `none` standing for the resulting
  process abort.
* Deferred `Commands` (spawn/despawn) are modelled as explicit pending
  command lists accumulated next to the live component store, since they
  only take effect after the system that issued them finishes.
-/

namespace BevyJam

/-- Entity identifier (`bevy::ecs::entity::Entity`). -/
abbrev Entity := Nat

/-- `glam::Vec2`, with exact rational coordinates. -/
structure Vec2 where
  x : ℚ
  y : ℚ
deriving DecidableEq, Repr

/-- Componentwise vector addition. -/
def Vec2.add (a b : Vec2) : Vec2 :=
  ⟨a.x + b.x, a.y + b.y⟩

/-- Scalar multiplication of a vector. -/
def Vec2.smul (s : ℚ) (v : Vec2) : Vec2 :=
  ⟨s * v.x, s * v.y⟩

/-! ## Time-scale controller (`src/demo/time_scale.rs`) -/

/-- `TimeScaleKind` from `time_scale.rs`. -/
inductive TimeScaleKind where
  | normal
  | slowed
deriving DecidableEq, Repr

/-- `TimeScaleKind::value`: `Normal => 1.0`, `Slowed => 0.1`. -/
def TimeScaleKind.value : TimeScaleKind → ℚ
  | .normal => 1
  | .slowed => 1 / 10

/-- The pieces of world state that the time-scale systems touch: the
`TimeScale` resource (automatic value), the `TimeScaleOverride` resource, and
the `time_scale` field of `TimestepMode::Variable` (the scale the physics
step actually observes). -/
structure TimeScaleState where
  timeScale : TimeScaleKind
  override : Option TimeScaleKind
  observed : ℚ
deriving DecidableEq, Repr

/-- One `SetTimeScale` event processed by the `set_time_scale` system:
store the automatic value, and only when no override is present write it
through to the physics timestep. -/
def setTimeScale (k : TimeScaleKind) (st : TimeScaleState) : TimeScaleState :=
  let st := { st with timeScale := k }
  if st.override = none then
    { st with observed := st.timeScale.value }
  else
    st

/-- One `SetTimeScaleOverride` event processed by the
`set_time_scale_override` system: store the override, then write either the
override's value or (when cleared) the stored automatic value to the physics
timestep. -/
def setTimeScaleOverride (o : Option TimeScaleKind) (st : TimeScaleState) : TimeScaleState :=
  let st := { st with override := o }
  match st.override with
  | some k => { st with observed := k.value }
  | none => { st with observed := st.timeScale.value }

/-- The time-scale effect of the `player_particle_collision` observer
(`particle.rs:294-320`): when the struck particle is not invincible it writes
`time_speed.slow` directly into the physics timestep, without consulting the
override resource and without updating the stored automatic `TimeScale`
resource. Returns the updated time state together with the emitted
`ParticleSplitEvent` targets. -/
def playerParticleCollision (invincible : Bool) (slow : ℚ) (target : Entity)
    (st : TimeScaleState) : TimeScaleState × List Entity :=
  if invincible then
    (st, [])
  else
    ({ st with observed := slow }, [target])

/-! ## Level progression state machine (`src/demo/level.rs`) -/

/-- `LevelState` from `level.rs`. -/
inductive LevelState where
  | playing
  | ended
deriving DecidableEq, Repr

/-- The state touched by the particle-count bookkeeping systems: the
`LevelState` and `ParticleCount` components of the single level entity, plus
a count of how many `EndLevelTimer` entities have ever been spawned (the
completion delays started). -/
structure LevelCount where
  lstate : LevelState
  count : Nat
  timersStarted : Nat
deriving DecidableEq, Repr

/-- `increase_particle_count`: one run of the system with `spawns` many
`ParticleSpawned` events queued.  Returns early when the level has ended. -/
def increaseParticleCount (spawns : Nat) (st : LevelCount) : LevelCount :=
  if st.lstate = .ended then
    st
  else
    { st with count := st.count + spawns }

/-- `decrease_particle_count`: one run of the system with `despawns` many
`ParticleDespawned` events queued.  Returns early when the level has ended;
otherwise applies every decrement (`particle_count.0 -= 1` is a `usize`
subtraction, so exceeding the stored count aborts: `none`), and only after
the whole batch checks the count against zero once, spawning the
`EndLevelTimer` and flipping the state to `Ended` exactly when it is zero. -/
def decreaseParticleCount (despawns : Nat) (st : LevelCount) : Option LevelCount :=
  if st.lstate = .ended then
    some st
  else if st.count < despawns then
    none
  else
    let c := st.count - despawns
    if c = 0 then
      some { lstate := .ended, count := 0, timersStarted := st.timersStarted + 1 }
    else
      some { st with count := c }

/-- One `Update` frame of the chained pair
`(increase_particle_count, decrease_particle_count)`, fed the numbers of
spawn and despawn events that arrived this frame. -/
def levelFrame (f : Nat × Nat) (st : LevelCount) : Option LevelCount :=
  decreaseParticleCount f.2 (increaseParticleCount f.1 st)

/-- Iterating `levelFrame` over a list of frames. -/
def runFrames (fs : List (Nat × Nat)) (st : LevelCount) : Option LevelCount :=
  match fs with
  | [] => some st
  | f :: rest =>
    match levelFrame f st with
    | none => none
    | some st' => runFrames rest st'

/-- A frame schedule is admissible when no frame asks to despawn more
particles than are alive at that point (each live particle despawns at most
once, so real schedules satisfy this). -/
def framesAdmissible (st : LevelCount) (fs : List (Nat × Nat)) : Bool :=
  match fs with
  | [] => true
  | f :: rest =>
    f.2 ≤ st.count + f.1 &&
      (match levelFrame f st with
       | none => true
       | some st' => framesAdmissible st' rest)

/-- The fixed completion delay: `EndLevelTimer::new` uses 2.0 seconds. -/
def endLevelDelay : ℚ := 2

/-- `tick_end_level_timer` acting on one timer with `r` seconds remaining:
advance by `delta`; when the timer finishes, write the `EndLevel` event and
despawn the timer entity.  Returns the surviving remaining time (or `none`
when the timer entity was despawned) and whether `EndLevel` was emitted. -/
def tickEndLevelTimer (delta r : ℚ) : Option ℚ × Bool :=
  if r - delta ≤ 0 then
    (none, true)
  else
    (some (r - delta), false)

/-- The `Level` component from `level.rs`. -/
inductive Level where
  | defaultL (id : Nat)
  | customL (name : String)
deriving DecidableEq, Repr

/-- The screens relevant to level progression (`screens.rs`). -/
inductive ScreenId where
  | gameplay
  | editor
  | levels
  | endScreen
deriving DecidableEq, Repr

/-- What the `end_level` system reads from the world: the single level
entity's optional `Level` component, `level_assets.default.len()`, and
`editor_state.editing`. -/
structure EndLevelCtx where
  level : Option Level
  defaultLen : Nat
  editing : Bool
deriving DecidableEq, Repr

/-- The outcome of one run of `end_level`:
* `noop` — no `EndLevel` event was queued;
* `toScreen s` — `next_screen.set(s)` was called and the level entity was
  left alive;
* `endGameEvent` — an `EndGame` event was written and the level entity was
  left alive (the early `return` skips the despawn);
* `advance id` — `SpawnLevel(Level::Default(id))` was triggered and the
  current level entity was despawned. -/
inductive EndLevelAction where
  | noop
  | toScreen (s : ScreenId)
  | endGameEvent
  | advance (nextId : Nat)
deriving DecidableEq, Repr

/-- `end_level` (`level.rs:387-426`).  `hasEvents` is
`!events.is_empty()`.  The `none` result models the Rust process abort
raised by the `Level::Custom` branch (the string it carries is
"Not implemented."). -/
def endLevel (hasEvents : Bool) (ctx : EndLevelCtx) : Option EndLevelAction :=
  if !hasEvents then
    some .noop
  else
    match ctx.level with
    | Option.none =>
      some (.toScreen (if ctx.editing then .editor else .levels))
    | some (.defaultL id) =>
      if ctx.defaultLen ≤ id + 1 then
        some .endGameEvent
      else
        some (.advance (id + 1))
    | some (.customL _) => none

/-- `end_game`: when at least one `EndGame` event is queued, transition to
the terminal end screen. -/
def endGame (hasEvents : Bool) : Option ScreenId :=
  if hasEvents then some .endScreen else none

/-! ## Level asset table (`src/demo/level/level_loading.rs`) -/

/-- Asset handle identifier. -/
abbrev Handle := Nat

/-- The raw `LevelHandles` resource: the handle lists loaded from the
default and custom level directories. -/
structure LevelHandles where
  default : List Handle
  custom : List Handle
deriving DecidableEq, Repr

/-- The processed `LevelAssets` resource: default levels addressed by
index, custom levels addressed by the name embedded in the file. -/
structure LevelAssets where
  default : List Handle
  custom : List (String × Handle)
deriving DecidableEq, Repr

/-- The loaded `Assets<LevelData>` store, projected to the one field the
initialization logic reads: each handle's `LevelData::name`. -/
abbrev LevelStore := List (Handle × String)

/-- `Assets::get` on the store. -/
def storeName (store : LevelStore) (h : Handle) : Option String :=
  match store with
  | [] => Option.none
  | (h', n) :: rest => if h' = h then some n else storeName rest h

/-- The decimal value of one character, when it is a digit. -/
def charDigit (c : Char) : Option Nat :=
  let n := c.toNat
  if 48 ≤ n ∧ n ≤ 57 then some (n - 48) else Option.none

/-- Accumulate a decimal number over a character list; any non-digit
fails. -/
def parseNatAux : List Char → Nat → Option Nat
  | [], acc => some acc
  | c :: rest, acc =>
    match charDigit c with
    | some d => parseNatAux rest (acc * 10 + d)
    | Option.none => Option.none

/-- `s.parse::<usize>()` on a level name: a nonempty string of decimal
digits. -/
def parseLevelName (s : String) : Option Nat :=
  match s.data with
  | [] => Option.none
  | c :: rest => parseNatAux (c :: rest) 0

/-- The numeric name of a level: `level.name.parse::<usize>()`, which the
sort comparator unwraps with the message
"Default level names should be numbers.". -/
def levelNumber (store : LevelStore) (h : Handle) : Option Nat :=
  (storeName store h).bind parseLevelName

/-- Pair every default-level handle with its parsed numeric name; any
missing asset or non-numeric name aborts loading (the comparator's
`expect`). -/
def keyedNumbers (store : LevelStore) : List Handle → Option (List (Handle × Nat))
  | [] => some []
  | h :: rest =>
    match levelNumber store h, keyedNumbers store rest with
    | some n, some tail => some ((h, n) :: tail)
    | _, _ => Option.none

/-- Stable insertion into a list sorted by the numeric key. -/
def insertByNumber (p : Handle × Nat) : List (Handle × Nat) → List (Handle × Nat)
  | [] => [p]
  | q :: rest => if p.2 < q.2 then p :: q :: rest else q :: insertByNumber p rest

/-- `map_default`: sort the default-level handles by their parsed numeric
names (a stable comparison sort). -/
def sortDefaultHandles (store : LevelStore) (hs : List Handle) : Option (List Handle) :=
  match keyedNumbers store hs with
  | Option.none => Option.none
  | some ps => some ((ps.foldl (fun acc p => insertByNumber p acc) []).map Prod.fst)

/-- `map_custom`: key every handle by the `name` field of the level it
resolves to (`levels.get(h).unwrap()`). -/
def namesOf (store : LevelStore) : List Handle → Option (List (String × Handle))
  | [] => some []
  | h :: rest =>
    match storeName store h, namesOf store rest with
    | some n, some tail => some ((n, h) :: tail)
    | _, _ => Option.none

/-- `initialize_level_assets` (`level_loading.rs:55-113`), faithfully
including its two successive `std::mem::take` calls: the first takes the
`default` field; the second reads the `default` field AGAIN (which is now
empty) instead of the `custom` field, so the custom table is built from an
empty list. -/
def initLevelAssets (store : LevelStore) (handles : LevelHandles) : Option LevelAssets :=
  let d := handles.default
  let handles := { handles with default := [] }
  let c := handles.default
  match sortDefaultHandles store d with
  | Option.none => Option.none
  | some sorted =>
    match namesOf store c with
    | Option.none => Option.none
    | some named => some { default := sorted, custom := named }

/-- Lookup in the custom-level table (`level_assets.custom.get(name)`). -/
def customLookup (table : List (String × Handle)) (name : String) : Option Handle :=
  match table with
  | [] => Option.none
  | (n, h) :: rest => if n = name then some h else customLookup rest name

/-- `spawn_level` resolving the requested `Level` to an asset handle; both
arms unwrap, so an unknown index or name aborts (`none`). -/
def spawnLevel (assets : LevelAssets) (lv : Level) : Option Handle :=
  match lv with
  | .defaultL id => assets.default.get? id
  | .customL name => customLookup assets.custom name

/-! ## Collision classification (`src/physics.rs`, `src/demo/particle.rs`,
`src/demo/killer.rs`) -/

/-- The components of one entity that the collision handlers query:
presence of a `RigidBody`, the `ChildOf` parent link, and the `Player`,
`Particle` and `Killer` marker components. -/
structure EntityRec where
  rigidBody : Bool
  parent : Option Entity
  isPlayer : Bool
  isParticle : Bool
  isKiller : Bool
deriving DecidableEq, Repr

/-- The live entity store. -/
abbrev EntityWorld := List (Entity × EntityRec)

/-- ECS entity lookup. -/
def lookupEnt (w : EntityWorld) (e : Entity) : Option EntityRec :=
  match w with
  | [] => Option.none
  | (e', r) :: rest => if e' = e then some r else lookupEnt rest e

/-- `find_rigidbody_ancestor` (`physics.rs:12-27`).  The helper query asks
for `(Option<&RigidBody>, &ChildOf)`, so any entity without a `ChildOf`
parent link fails the query and the walk answers `None` — even when that
entity itself carries a rigid body.  The Rust loop is unbounded; parent
chains in the scene are finite and acyclic, which `fuel` makes explicit. -/
def findRigidbodyAncestor (w : EntityWorld) : Nat → Entity → Option Entity
  | 0, _ => Option.none
  | fuel + 1, e =>
    match lookupEnt w e with
    | Option.none => Option.none
    | some r =>
      match r.parent with
      | Option.none => Option.none
      | some p => if r.rigidBody then some e else findRigidbodyAncestor w fuel p

/-- A raw rapier contact event (`CollisionEvent`). -/
inductive CollisionEventR where
  | started (e1 e2 : Entity)
  | stopped (e1 e2 : Entity)
deriving DecidableEq, Repr

/-- The semantic events produced by the two collision handlers. -/
inductive SemanticEvent where
  | playerParticle (particle : Entity)
  | particleParticle (p1 p2 : Entity)
  | kill (player : Entity)
deriving DecidableEq, Repr

/-- `particle_collision_handler` (`particle.rs:245-286`).  A
non-`Started` event returns from the whole system; both ancestor walks are
unwrapped, so an unresolvable collider aborts the process (`none`); the
first matching classification is emitted and the system returns, leaving
later events for the next frame. -/
def particleCollisionHandler (w : EntityWorld) (fuel : Nat) :
    List CollisionEventR → Option (List SemanticEvent)
  | [] => some []
  | .stopped _ _ :: _ => some []
  | .started a b :: rest =>
    match findRigidbodyAncestor w fuel a with
    | Option.none => Option.none
    | some e1 =>
      match findRigidbodyAncestor w fuel b with
      | Option.none => Option.none
      | some e2 =>
        match lookupEnt w e1, lookupEnt w e2 with
        | some r1, some r2 =>
          if r1.isPlayer && r2.isParticle then
            some [.playerParticle e2]
          else if r2.isPlayer && r1.isParticle then
            some [.playerParticle e1]
          else if r1.isParticle && r2.isParticle then
            some [.particleParticle e1 e2]
          else
            particleCollisionHandler w fuel rest
        | _, _ => Option.none

/-- `killer_collision_handler` (`killer.rs:37-74`).  Structurally the same
scan, but both ancestor walks use `let Some(..) = .. else return`, so an
unresolvable collider makes the system return quietly with nothing emitted
instead of aborting.  (The two `query.get(..).unwrap()` calls after the
walk cannot fail: the walk only answers entities present in the store.) -/
def killerCollisionHandler (w : EntityWorld) (fuel : Nat) :
    List CollisionEventR → Option (List SemanticEvent)
  | [] => some []
  | .stopped _ _ :: _ => some []
  | .started a b :: rest =>
    match findRigidbodyAncestor w fuel a with
    | Option.none => some []
    | some e1 =>
      match findRigidbodyAncestor w fuel b with
      | Option.none => some []
      | some e2 =>
        match lookupEnt w e1, lookupEnt w e2 with
        | some r1, some r2 =>
          if r1.isKiller && r2.isPlayer then
            some [.kill e2]
          else if r2.isKiller && r1.isPlayer then
            some [.kill e1]
          else
            killerCollisionHandler w fuel rest
        | _, _ => Option.none

/-! ## Particle data model and decomposition (`src/demo/particle.rs`) -/

/-- `ParticleKind`. -/
inductive ParticleKind where
  | normal
  | killer
deriving DecidableEq, Repr

/-- The recursive `Particle` component: kind, radius, launch velocity and
the list of child particles it decomposes into.  (The mesh and material
handles carried by the Rust struct play no role in the decomposition
logic.) -/
inductive Particle where
  | mk (kind : ParticleKind) (radius : ℚ) (initialVelocity : Vec2)
      (subparticles : List Particle)

/-- Field accessor: `kind`. -/
def Particle.kind : Particle → ParticleKind
  | .mk k _ _ _ => k

/-- Field accessor: `radius`. -/
def Particle.radius : Particle → ℚ
  | .mk _ r _ _ => r

/-- Field accessor: `initial_velocity`. -/
def Particle.initialVelocity : Particle → Vec2
  | .mk _ _ v _ => v

/-- Field accessor: `subparticles`. -/
def Particle.subparticles : Particle → List Particle
  | .mk _ _ _ s => s

/-- Replace the `subparticles` field (the `std::mem::take` write-back). -/
def Particle.withSubparticles (p : Particle) (s : List Particle) : Particle :=
  .mk p.kind p.radius p.initialVelocity s

/-- `ParticleAssets::from_world` seeds `invincibility_duration` with
0.5 seconds. -/
def invincibilityDuration : ℚ := 1 / 2

/-- The spawn command issued by `particle_bundle`: where the new particle
instance goes, whether it is tagged `Invincible`, its component data, its
starting linear velocity (`Velocity { linvel: particle.initial_velocity }`)
and the optional `ChildOf` parent attached next to the bundle. -/
structure SpawnCmd where
  position : Vec2
  withInvincibility : Bool
  particle : Particle
  linearVelocity : Vec2
  parent : Option Entity

/-- `particle_bundle(translation, with_invincibility, particle, ..)`
projected to the decomposition-relevant data. -/
def particleBundle (translation : Vec2) (withInv : Bool) (p : Particle)
    (parent : Option Entity) : SpawnCmd :=
  { position := translation
    withInvincibility := withInv
    particle := p
    linearVelocity := p.initialVelocity
    parent := parent }

/-- The `Invincible` timer a freshly built bundle carries: present with the
full configured duration exactly when the bundle was spawned with
invincibility. -/
def bundleInvincibleTimer (cmd : SpawnCmd) : Option ℚ :=
  if cmd.withInvincibility then some invincibilityDuration else Option.none

/-- A live spawned particle instance as `split_particle` queries it: its
optional `Invincible` timer (remaining seconds), the bundle root entity it
is a child of, that bundle's own optional parent, its current translation
and its `Particle` component. -/
structure Inst where
  invincible : Option ℚ
  bundle : Entity
  bundleParent : Option Entity
  position : Vec2
  particle : Particle

/-- Instance store lookup (`particle_query.get_mut`). -/
def lookupInst (store : List (Entity × Inst)) (e : Entity) : Option Inst :=
  match store with
  | [] => Option.none
  | (e', i) :: rest => if e' = e then some i else lookupInst rest e

/-- In-place `std::mem::take(&mut particle.subparticles)`: empty the
subparticle list of the instance at `e`. -/
def clearSubparticles (store : List (Entity × Inst)) (e : Entity) :
    List (Entity × Inst) :=
  match store with
  | [] => []
  | (e', i) :: rest =>
    if e' = e then
      (e', { i with particle := i.particle.withSubparticles [] }) :: rest
    else
      (e', i) :: clearSubparticles rest e

/-- The `Player` data `split_particle` reads. -/
structure PlayerRec where
  radius : ℚ

/-- The state `split_particle` threads: the live instance store (mutated in
place) plus the deferred spawn and despawn commands, which only take effect
after the system finishes. -/
structure SplitState where
  instances : List (Entity × Inst)
  spawns : List SpawnCmd
  despawns : List Entity

/-- The launch offset computed by `split_particle` for one child:
`sub_particle.initial_velocity.normalize() * (particle.radius + 2.0 *
player.radius + sub_particle.radius)`.  `nz` is `Vec2::normalize`. -/
def splitOffset (nz : Vec2 → Vec2) (playerRadius : ℚ) (parent c : Particle) : Vec2 :=
  Vec2.smul (parent.radius + 2 * playerRadius + c.radius) (nz c.initialVelocity)

/-- The spawn command `split_particle` issues for one child particle. -/
def splitSpawnCmd (nz : Vec2 → Vec2) (playerRadius : ℚ) (position : Vec2)
    (parent : Particle) (bundleParent : Option Entity) (c : Particle) : SpawnCmd :=
  particleBundle (Vec2.add position (splitOffset nz playerRadius parent c)) true c bundleParent

/-- `split_particle` (`particle.rs:343-384`) over its queued
`ParticleSplitEvent`s.  Per event: the target lookup is unwrapped (a
missing entity aborts the process: `none`); an invincible target makes the
system `return`, leaving the remaining events unprocessed; otherwise the
player is unwrapped, the target's subparticle list is taken, one bundle is
spawned per child at the offset position, and the target's bundle root is
queued for despawn. -/
def splitParticle (nz : Vec2 → Vec2) (player : Option PlayerRec) :
    List Entity → SplitState → Option SplitState
  | [], st => some st
  | e :: rest, st =>
    match lookupInst st.instances e with
    | Option.none => Option.none
    | some inst =>
      if inst.invincible.isSome then
        some st
      else
        match player with
        | Option.none => Option.none
        | some pl =>
          let subs := inst.particle.subparticles
          splitParticle nz player rest
            { instances := clearSubparticles st.instances e
              spawns := st.spawns ++
                subs.map (splitSpawnCmd nz pl.radius inst.position inst.particle inst.bundleParent)
              despawns := st.despawns ++ [inst.bundle] }

/-- The `particle_particle_collision` observer (`particle.rs:328-338`):
a particle-particle contact unconditionally writes one `ParticleSplitEvent`
per participant, in order, with no invincibility check. -/
def particleParticleCollisionSplits (p1 p2 : Entity) : List Entity :=
  [p1, p2]

/-- One `tick_invincibility` step for one instance holding an `Invincible`
timer with `r` seconds remaining: after advancing by `delta` the timer
finishes exactly when no time remains, and finishing removes the
`Invincible` component (state becomes vulnerable, `none`). -/
def tickInvincible (delta : ℚ) : Option ℚ → Option ℚ
  | Option.none => Option.none
  | some r => if 0 < r - delta then some (r - delta) else Option.none

/-- Iterated invincibility ticking across frames with the given deltas. -/
def tickInvincibleRun (ds : List ℚ) (s : Option ℚ) : Option ℚ :=
  match ds with
  | [] => s
  | d :: rest => tickInvincibleRun rest (tickInvincible d s)

/-- Written from the spec's words (§4.2 step 2), for comparison with the
code: "offset = normalize(c.initial_velocity) * (parent.radius +
fixed_margin + c.radius)" and "the spawn position is parent.position +
offset". -/
def specSpawnPosition (nz : Vec2 → Vec2) (fixedMargin : ℚ) (parentPos : Vec2)
    (parentRadius : ℚ) (c : Particle) : Vec2 :=
  Vec2.add parentPos (Vec2.smul (parentRadius + fixedMargin + c.radius) (nz c.initialVelocity))

/-! ## Concrete fixtures used by counterexamples and witnesses -/

/-- A concrete stand-in for `Vec2::normalize` (the statements about the
split geometry hold for every such function, so the identity suffices for
evaluation). -/
def nzExample : Vec2 → Vec2 := fun v => v

/-- A childless particle. -/
def leafParticle : Particle := .mk .normal 10 ⟨1, 0⟩ []

/-- A particle with one child. -/
def compositeParticle : Particle := .mk .normal 12 ⟨0, 1⟩ [leafParticle]

/-- The player record with the default `PlayerConfig` radius of 20. -/
def exPlayer : PlayerRec := { radius := 20 }

/-- An instance inside its invincibility window. -/
def exInstImmune : Inst :=
  { invincible := some invincibilityDuration
    bundle := 10
    bundleParent := Option.none
    position := ⟨0, 0⟩
    particle := leafParticle }

/-- A vulnerable leaf instance. -/
def exInstVulnerable : Inst :=
  { invincible := Option.none
    bundle := 20
    bundleParent := Option.none
    position := ⟨5, 0⟩
    particle := leafParticle }

/-- A vulnerable composite instance (one child). -/
def exInstComposite : Inst :=
  { invincible := Option.none
    bundle := 30
    bundleParent := some 0
    position := ⟨0, 0⟩
    particle := compositeParticle }

/-- A split-system state holding the immune instance (entity 1) and the
vulnerable leaf instance (entity 2). -/
def exSplitState : SplitState :=
  { instances := [(1, exInstImmune), (2, exInstVulnerable)]
    spawns := []
    despawns := [] }

/-- A split-system state holding only the vulnerable composite instance
(entity 3). -/
def exSplitStateComposite : SplitState :=
  { instances := [(3, exInstComposite)]
    spawns := []
    despawns := [] }

/-- An entity store holding a level root (0), the player (1) with its
sensor (2), and a Killer-kind particle (3) with its sensor (4). -/
def exWorld : EntityWorld :=
  [ (0, { rigidBody := false, parent := Option.none, isPlayer := false,
          isParticle := false, isKiller := false }),
    (1, { rigidBody := true, parent := some 0, isPlayer := true,
          isParticle := false, isKiller := false }),
    (2, { rigidBody := false, parent := some 1, isPlayer := false,
          isParticle := false, isKiller := false }),
    (3, { rigidBody := true, parent := some 0, isPlayer := false,
          isParticle := true, isKiller := true }),
    (4, { rigidBody := false, parent := some 3, isPlayer := false,
          isParticle := false, isKiller := false }) ]

/-- An entity store where entity 6's ancestor chain reaches a root (7)
that carries a rigid body but no parent link, so the ancestor walk — whose
helper query demands a `ChildOf` — fails to resolve it. -/
def exStaleWorld : EntityWorld :=
  [ (6, { rigidBody := false, parent := some 7, isPlayer := false,
          isParticle := false, isKiller := false }),
    (7, { rigidBody := true, parent := Option.none, isPlayer := false,
          isParticle := false, isKiller := false }) ]

/-- A loaded level store: two default levels named "0" and "1", and one
custom level whose embedded name is "mylevel". -/
def exStore : LevelStore := [(0, "0"), (1, "1"), (5, "mylevel")]

/-- Raw level handles: the default handles out of order, and the custom
level's handle in the custom list. -/
def exHandles : LevelHandles := { default := [1, 0], custom := [5] }

/-- A time-scale state with an active `Some(Normal)` override, whose value
the physics timestep currently observes. -/
def exOverrideState : TimeScaleState :=
  { timeScale := .normal, override := some .normal, observed := 1 }

/-! ## Invincibility timer lemmas -/

/-- Once an instance is vulnerable, ticking keeps it vulnerable. -/
theorem tickInvincibleRun_vulnerable (ds : List ℚ) :
    tickInvincibleRun ds Option.none = Option.none := by
  induction ds with
  | nil => rfl
  | cons d rest ih => simpa [tickInvincibleRun, tickInvincible] using ih

/-- Closed form of the invincibility countdown: under nonnegative frame
deltas, the timer survives with the remaining difference while the elapsed
total is below the initial remaining time, and lapses otherwise. -/
theorem tickInvincibleRun_closed (ds : List ℚ) :
    ∀ r : ℚ, 0 < r → (∀ x ∈ ds, 0 ≤ x) →
      tickInvincibleRun ds (some r) =
        if ds.sum < r then some (r - ds.sum) else Option.none := by
  induction ds with
  | nil =>
    intro r hr _
    simp [tickInvincibleRun, hr]
  | cons d rest ih =>
    intro r hr hnn
    have hd : 0 ≤ d := hnn d (by simp)
    have hrest : ∀ x ∈ rest, 0 ≤ x := fun x hx => hnn x (by simp [hx])
    simp only [tickInvincibleRun, tickInvincible, List.sum_cons]
    by_cases hpos : 0 < r - d
    · rw [if_pos hpos, ih (r - d) hpos hrest]
      have hiff : rest.sum < r - d ↔ d + rest.sum < r := by
        constructor <;> intro <;> linarith
      by_cases hlt : rest.sum < r - d
      · rw [if_pos hlt, if_pos (hiff.mp hlt), sub_sub]
      · rw [if_neg hlt, if_neg (fun hc => hlt (hiff.mpr hc))]
    · rw [if_neg hpos, tickInvincibleRun_vulnerable]
      have hsum : 0 ≤ rest.sum := List.sum_nonneg hrest
      have : ¬ d + rest.sum < r := by
        push_neg at hpos ⊢
        linarith
      rw [if_neg this]

/-! ## Level-count lemmas -/

/-- An `Ended` level ignores spawn and despawn events entirely. -/
theorem levelFrame_ended (f : Nat × Nat) (st : LevelCount) (h : st.lstate = .ended) :
    levelFrame f st = some st := by
  simp [levelFrame, increaseParticleCount, decreaseParticleCount, h]

/-- An `Ended` level stays untouched across any frame schedule. -/
theorem runFrames_ended (fs : List (Nat × Nat)) (st : LevelCount) (h : st.lstate = .ended) :
    runFrames fs st = some st := by
  induction fs with
  | nil => rfl
  | cons f rest ih => simp [runFrames, levelFrame_ended f st h, ih]

/-- `decrease_particle_count` on a `Playing` level with enough live
particles: all decrements of the batch are applied, then the single
end-of-batch zero test decides whether the completion delay starts. -/
theorem decrease_playing (d : Nat) (st : LevelCount) (hp : st.lstate = .playing)
    (hle : d ≤ st.count) :
    decreaseParticleCount d st =
      some (if st.count - d = 0 then
              { lstate := .ended, count := 0, timersStarted := st.timersStarted + 1 }
            else
              { lstate := .playing, count := st.count - d,
                timersStarted := st.timersStarted }) := by
  obtain ⟨ls, c0, t0⟩ := st
  simp only at hp hle
  subst hp
  by_cases hz : c0 - d = 0 <;>
    simp [decreaseParticleCount, Nat.not_lt.mpr hle, hz]

/-- One frame of the chained count systems on a `Playing` level. -/
theorem levelFrame_playing (f : Nat × Nat) (st : LevelCount) (hp : st.lstate = .playing)
    (hle : f.2 ≤ st.count + f.1) :
    levelFrame f st =
      some (if st.count + f.1 - f.2 = 0 then
              { lstate := .ended, count := 0, timersStarted := st.timersStarted + 1 }
            else
              { lstate := .playing, count := st.count + f.1 - f.2,
                timersStarted := st.timersStarted }) := by
  have hinc : increaseParticleCount f.1 st = { st with count := st.count + f.1 } := by
    simp [increaseParticleCount, hp]
  rw [levelFrame, hinc]
  exact decrease_playing f.2 { st with count := st.count + f.1 } hp hle

/-- Behaviour of a whole admissible frame schedule: it never aborts, an
`Ended` start state is inert, and from a `Playing` start state the run
either stays `Playing` with no delay started or finishes `Ended` with the
count at zero and exactly one delay started. -/
theorem runFrames_spec (fs : List (Nat × Nat)) :
    ∀ st : LevelCount, framesAdmissible st fs = true →
      ∃ st', runFrames fs st = some st' ∧
        (st.lstate = .ended → st' = st) ∧
        (st.lstate = .playing →
          (st'.lstate = .playing ∧ st'.timersStarted = st.timersStarted) ∨
          (st'.lstate = .ended ∧ st'.timersStarted = st.timersStarted + 1 ∧
            st'.count = 0)) := by
  induction fs with
  | nil =>
    intro st _
    exact ⟨st, rfl, fun _ => rfl, fun hp => Or.inl ⟨hp, rfl⟩⟩
  | cons f rest ih =>
    intro st hadm
    simp only [framesAdmissible, Bool.and_eq_true, decide_eq_true_eq] at hadm
    obtain ⟨hle, hm⟩ := hadm
    cases hls : st.lstate with
    | ended =>
      have hframe := levelFrame_ended f st hls
      simp only [hframe] at hm
      obtain ⟨st', hrun, hE, _⟩ := ih st hm
      refine ⟨st', ?_, fun _ => hE hls, ?_⟩
      · simp [runFrames, hframe, hrun]
      · intro hp
        simp [hls] at hp
    | playing =>
      have hframe := levelFrame_playing f st hls hle
      by_cases hz : st.count + f.1 - f.2 = 0
      · rw [if_pos hz] at hframe
        simp only [hframe] at hm
        refine ⟨{ lstate := .ended, count := 0, timersStarted := st.timersStarted + 1 },
          ?_, ?_, ?_⟩
        · simp [runFrames, hframe]
          exact runFrames_ended rest _ rfl
        · intro hcon
          simp [hls] at hcon
        · intro _
          exact Or.inr ⟨rfl, rfl, rfl⟩
      · rw [if_neg hz] at hframe
        simp only [hframe] at hm
        obtain ⟨st', hrun, _, hP⟩ := ih _ hm
        refine ⟨st', ?_, ?_, ?_⟩
        · simp [runFrames, hframe, hrun]
        · intro hcon
          simp [hls] at hcon
        · intro _
          exact hP rfl

/-! ## Claim C1 -/

/-- C1: the claim says that a `ParticleSplitEvent` whose target entity no
longer exists is skipped gracefully and processing continues.  In the code
the second lookup is `particle_query.get_mut(event.0).unwrap()`, so a
missing target aborts the process: on a store holding entities 1 and 2, an
event naming entity 99 makes `split_particle` abort instead of skipping. -/
theorem C1_missing_split_target_aborts :
    splitParticle nzExample (some exPlayer) [99] exSplitState = Option.none := rfl

/-! ## Claim C2 -/

/-- C2: decomposing a vulnerable spawned instance queues exactly one spawn
per child — placed at `parent.position + normalize(c.initial_velocity) *
(parent.radius + fixed_margin + c.radius)` with the code's fixed margin of
twice the player radius, launched with `c.initial_velocity`, and tagged
with a fresh full-duration invincibility window — queues the despawn of the
parent's bundle, and spawns nothing when the children list is empty. -/
theorem C2_decomposition_spawns (nz : Vec2 → Vec2) (pl : PlayerRec) (e : Entity)
    (inst : Inst) (st : SplitState)
    (hfind : lookupInst st.instances e = some inst)
    (hvuln : inst.invincible = Option.none) :
    (splitParticle nz (some pl) [e] st).map SplitState.spawns =
      some (st.spawns ++ inst.particle.subparticles.map (fun c =>
        { position := specSpawnPosition nz (2 * pl.radius) inst.position inst.particle.radius c
          withInvincibility := true
          particle := c
          linearVelocity := c.initialVelocity
          parent := inst.bundleParent })) ∧
    (splitParticle nz (some pl) [e] st).map SplitState.despawns =
      some (st.despawns ++ [inst.bundle]) ∧
    (∀ c, bundleInvincibleTimer
        (splitSpawnCmd nz pl.radius inst.position inst.particle inst.bundleParent c) =
      some invincibilityDuration) ∧
    (inst.particle.subparticles = [] →
      (splitParticle nz (some pl) [e] st).map SplitState.spawns = some st.spawns) := by
  have hfun : splitSpawnCmd nz pl.radius inst.position inst.particle inst.bundleParent =
      fun c =>
        ({ position := specSpawnPosition nz (2 * pl.radius) inst.position inst.particle.radius c
           withInvincibility := true
           particle := c
           linearVelocity := c.initialVelocity
           parent := inst.bundleParent } : SpawnCmd) := by
    funext c
    rfl
  have hrun : splitParticle nz (some pl) [e] st =
      some { instances := clearSubparticles st.instances e
             spawns := st.spawns ++ inst.particle.subparticles.map
               (splitSpawnCmd nz pl.radius inst.position inst.particle inst.bundleParent)
             despawns := st.despawns ++ [inst.bundle] } := by
    simp [splitParticle, hfind, hvuln]
  refine ⟨?_, ?_, ?_, ?_⟩
  · rw [hrun, hfun]
    rfl
  · rw [hrun]
    rfl
  · intro c
    rfl
  · intro hempty
    rw [hrun]
    simp [hempty]

/-- C2 witness: splitting the composite instance (one child, bundle 30)
queues exactly the despawn of bundle 30. -/
theorem C2_decomposition_spawns_witness :
    (splitParticle nzExample (some exPlayer) [3] exSplitStateComposite).map SplitState.despawns =
      some [30] :=
  (C2_decomposition_spawns nzExample exPlayer 3 exInstComposite exSplitStateComposite
    rfl rfl).2.1

/-! ## Claim C3 -/

/-- C3 counterexample: the claim says no contact involving an Immune
instance causes any particle to decompose while the window lasts.  Here
entity 1 is inside its window and entity 2 is a vulnerable leaf; the
particle-particle contact between them writes split events for both, and
processing them decomposes entity 2 (its bundle 20 is despawned) even
though the contact involved the Immune entity 1. -/
theorem C3_counterexample_immune_contact_splits_partner :
    (lookupInst exSplitState.instances 1).map Inst.invincible =
      some (some invincibilityDuration) ∧
    (splitParticle nzExample (some exPlayer)
        (particleParticleCollisionSplits 2 1) exSplitState).map SplitState.despawns =
      some [20] := by
  constructor <;> rfl

/-- C3 (amended): every split-born instance starts with a fresh
full-duration invincibility window and becomes vulnerable exactly when the
configured duration has fully elapsed; an Immune instance is never itself
decomposed (its split event leaves the state untouched), and a player
contact with an Immune instance triggers no split at all; but a
particle-particle contact emits a split event for both participants
regardless of immunity, so the vulnerable partner of an Immune instance
still decomposes. -/
theorem C3_invincibility_window :
    (∀ nz r pos parent bp (c : Particle),
      bundleInvincibleTimer (splitSpawnCmd nz r pos parent bp c) =
        some invincibilityDuration) ∧
    (∀ (d : ℚ) (ds : List ℚ), 0 < d → (∀ x ∈ ds, 0 ≤ x) →
      (tickInvincibleRun ds (some d) = Option.none ↔ d ≤ ds.sum)) ∧
    (∀ nz player e rest st inst, lookupInst st.instances e = some inst →
      inst.invincible.isSome = true →
      splitParticle nz player (e :: rest) st = some st) ∧
    (∀ (slow : ℚ) t st, playerParticleCollision true slow t st = (st, [])) ∧
    (∀ p1 p2, particleParticleCollisionSplits p1 p2 = [p1, p2]) := by
  refine ⟨fun nz r pos parent bp c => rfl, ?_, ?_, fun slow t st => rfl, fun p1 p2 => rfl⟩
  · intro d ds hd hnn
    rw [tickInvincibleRun_closed ds d hd hnn]
    by_cases hlt : ds.sum < d
    · simp [hlt, not_le.mpr hlt]
    · simp [hlt, not_lt.mp hlt]
  · intro nz player e rest st inst hfind hinv
    simp [splitParticle, hfind, hinv]

/-- C3 witness: the split event naming the immune instance (entity 1)
leaves the state untouched. -/
theorem C3_invincibility_window_witness :
    splitParticle nzExample (some exPlayer) [1] exSplitState = some exSplitState :=
  C3_invincibility_window.2.2.1 nzExample (some exPlayer) 1 [] exSplitState exInstImmune
    rfl rfl

/-! ## Claim C4 -/

/-- C4: the per-level particle count never goes negative on an admissible
schedule (the `usize` subtraction never underflows); the decrements of one
frame are all applied before the single end-of-batch zero comparison, so
one invocation starts at most one delay; across a whole run from `Playing`,
the completion delay is started exactly once — precisely when the count
reaches 0, which is also when the state flips to `Ended` — and an `Ended`
level ignores all further spawn/despawn events. -/
theorem C4_particle_count_invariants :
    (∀ d (st st' : LevelCount), decreaseParticleCount d st = some st' →
      st'.timersStarted ≤ st.timersStarted + 1) ∧
    (∀ d (st : LevelCount), st.lstate = .playing → d ≤ st.count →
      decreaseParticleCount d st =
        some (if st.count - d = 0 then
                { lstate := .ended, count := 0, timersStarted := st.timersStarted + 1 }
              else
                { lstate := .playing, count := st.count - d,
                  timersStarted := st.timersStarted })) ∧
    (∀ st fs, framesAdmissible st fs = true → ∃ st', runFrames fs st = some st') ∧
    (∀ st fs st', st.lstate = .playing → framesAdmissible st fs = true →
      runFrames fs st = some st' →
      (st'.lstate = .ended → st'.timersStarted = st.timersStarted + 1 ∧ st'.count = 0) ∧
      (st'.lstate = .playing → st'.timersStarted = st.timersStarted)) ∧
    (∀ f (st : LevelCount), st.lstate = .ended → levelFrame f st = some st) := by
  refine ⟨?_, decrease_playing, ?_, ?_, levelFrame_ended⟩
  · intro d st st' h
    simp only [decreaseParticleCount] at h
    split at h
    · injection h with h
      subst h
      omega
    · split at h
      · exact Option.noConfusion h
      · split at h <;> (injection h with h; subst h; simp)
  · intro st fs hadm
    obtain ⟨st', hrun, -, -⟩ := runFrames_spec fs st hadm
    exact ⟨st', hrun⟩
  · intro st fs st' hp hadm hrun
    obtain ⟨st'', hrun', -, hP⟩ := runFrames_spec fs st hadm
    rw [hrun] at hrun'
    injection hrun' with hrun'
    subst hrun'
    rcases hP hp with ⟨hpl, ht⟩ | ⟨hend, ht, hc⟩
    · refine ⟨?_, fun _ => ht⟩
      intro hcon
      rw [hpl] at hcon
      cases hcon
    · refine ⟨fun _ => ⟨ht, hc⟩, ?_⟩
      intro hcon
      rw [hend] at hcon
      cases hcon

/-- C4 witness: an admissible two-frame schedule (spawn three particles and
despawn one, then despawn the remaining two) runs to completion without
aborting. -/
theorem C4_particle_count_invariants_witness :
    ∃ st', runFrames [(3, 1), (0, 2)]
      { lstate := .playing, count := 0, timersStarted := 0 } = some st' :=
  C4_particle_count_invariants.2.2.1 _ [(3, 1), (0, 2)] rfl

/-! ## Collision-handler lemmas -/

/-- Any successful run of the particle collision handler emits at most one
semantic event. -/
theorem particleCollisionHandler_len (w : EntityWorld) (fuel : Nat) :
    ∀ (evs : List CollisionEventR) (out : List SemanticEvent),
      particleCollisionHandler w fuel evs = some out → out.length ≤ 1 := by
  intro evs
  induction evs with
  | nil =>
    intro out h
    injection h with h
    subst h
    simp
  | cons e rest ih =>
    intro out h
    cases e with
    | stopped a b =>
      injection h with h
      subst h
      simp
    | started a b =>
      simp only [particleCollisionHandler] at h
      repeat' split at h
      all_goals
        first
          | exact Option.noConfusion h
          | (injection h with h; subst h; simp)
          | exact ih _ h

/-- Any successful run of the killer collision handler emits at most one
semantic event. -/
theorem killerCollisionHandler_len (w : EntityWorld) (fuel : Nat) :
    ∀ (evs : List CollisionEventR) (out : List SemanticEvent),
      killerCollisionHandler w fuel evs = some out → out.length ≤ 1 := by
  intro evs
  induction evs with
  | nil =>
    intro out h
    injection h with h
    subst h
    simp
  | cons e rest ih =>
    intro out h
    cases e with
    | stopped a b =>
      injection h with h
      subst h
      simp
    | started a b =>
      simp only [killerCollisionHandler] at h
      repeat' split at h
      all_goals
        first
          | exact Option.noConfusion h
          | (injection h with h; subst h; simp)
          | exact ih _ h

/-! ## Claim C5 -/

/-- C5 counterexample: the claim says at most one semantic classification
fires per raw contact event.  The particle handler and the killer handler
are two independent systems scanning the same queue, and a Killer-kind
particle carries both the `Particle` and the `Killer` components, so the
single contact between the player's sensor (entity 2) and the killer
particle's sensor (entity 4) fires `PlayerParticleCollision` AND
`KillEvent`. -/
theorem C5_counterexample_two_classifications :
    particleCollisionHandler exWorld 4 [.started 2 4] = some [.playerParticle 3] ∧
    killerCollisionHandler exWorld 4 [.started 2 4] = some [.kill 1] := by
  constructor <;> rfl

/-- C5 (amended): each of the two collision handlers fires at most one
classification per run; within a handler the rules are tested in order on
the resolved pair and the first match is emitted, with the system returning
immediately so that all remaining queued events are deferred; but the two
handlers scan the queue independently, so a single raw contact between the
player and a Killer-kind particle fires one classification in each. -/
theorem C5_first_match_classification :
    (∀ w fuel evs out, particleCollisionHandler w fuel evs = some out →
      out.length ≤ 1) ∧
    (∀ w fuel evs out, killerCollisionHandler w fuel evs = some out →
      out.length ≤ 1) ∧
    (∀ w fuel a b e1 e2 r1 r2 (rest : List CollisionEventR),
      findRigidbodyAncestor w fuel a = some e1 →
      findRigidbodyAncestor w fuel b = some e2 →
      lookupEnt w e1 = some r1 → lookupEnt w e2 = some r2 →
      (r1.isPlayer && r2.isParticle) = true →
      particleCollisionHandler w fuel (.started a b :: rest) =
        some [.playerParticle e2]) ∧
    (∀ w fuel a b e1 e2 r1 r2 (rest : List CollisionEventR),
      findRigidbodyAncestor w fuel a = some e1 →
      findRigidbodyAncestor w fuel b = some e2 →
      lookupEnt w e1 = some r1 → lookupEnt w e2 = some r2 →
      (r1.isPlayer && r2.isParticle) = false →
      (r2.isPlayer && r1.isParticle) = false →
      (r1.isParticle && r2.isParticle) = true →
      particleCollisionHandler w fuel (.started a b :: rest) =
        some [.particleParticle e1 e2]) ∧
    (∀ w fuel a b e1 e2 r1 r2 (rest : List CollisionEventR),
      findRigidbodyAncestor w fuel a = some e1 →
      findRigidbodyAncestor w fuel b = some e2 →
      lookupEnt w e1 = some r1 → lookupEnt w e2 = some r2 →
      r1.isPlayer = true → r1.isKiller = false →
      r2.isParticle = true → r2.isKiller = true →
      particleCollisionHandler w fuel (.started a b :: rest) =
        some [.playerParticle e2] ∧
      killerCollisionHandler w fuel (.started a b :: rest) =
        some [.kill e1]) := by
  refine ⟨particleCollisionHandler_len, killerCollisionHandler_len, ?_, ?_, ?_⟩
  · intro w fuel a b e1 e2 r1 r2 rest hfa hfb h1 h2 hc
    simp [particleCollisionHandler, hfa, hfb, h1, h2, hc]
  · intro w fuel a b e1 e2 r1 r2 rest hfa hfb h1 h2 hc1 hc2 hc3
    simp [particleCollisionHandler, hfa, hfb, h1, h2, hc1, hc2, hc3]
  · intro w fuel a b e1 e2 r1 r2 rest hfa hfb h1 h2 hpl hnk hpa hki
    constructor
    · simp [particleCollisionHandler, hfa, hfb, h1, h2, hpl, hpa]
    · simp [killerCollisionHandler, hfa, hfb, h1, h2, hpl, hnk, hki]

/-- C5 witness: the first-match rule applied to the concrete store — with
another contact queued behind it, the handler still emits only the head
event's classification and defers the rest. -/
theorem C5_first_match_classification_witness :
    particleCollisionHandler exWorld 4 [.started 2 4, .started 4 2] =
      some [.playerParticle 3] :=
  C5_first_match_classification.2.2.1 exWorld 4 2 4 1 3 _ _ [.started 4 2]
    rfl rfl rfl rfl rfl

/-! ## Claim C6 -/

/-- C6: the claim says an unresolvable contact is always dropped silently
and processing never crashes.  Entity 6's ancestor chain ends at a root
that fails the helper query (it has no parent link), so the walk yields
`None`; `killer_collision_handler` indeed returns quietly, but
`particle_collision_handler` unwraps the walk's result and aborts the
process. -/
theorem C6_unresolved_contact_aborts_particle_handler :
    findRigidbodyAncestor exStaleWorld 5 6 = Option.none ∧
    particleCollisionHandler exStaleWorld 5 [.started 6 9] = Option.none ∧
    killerCollisionHandler exStaleWorld 5 [.started 6 9] = some [] := by
  refine ⟨rfl, rfl, rfl⟩

/-! ## Claim C7 -/

/-- C7 counterexample: the claim says the level remains `Playing` until the
completion delay elapses and only then becomes `Ended`.  In the code the
invocation of `decrease_particle_count` that brings the count to 0 sets
`LevelState::Ended` in the same breath as spawning the (2-second, not yet
elapsed) delay timer, so the state is already `Ended` while the delay is
still pending. -/
theorem C7_counterexample_ended_before_delay :
    decreaseParticleCount 1 { lstate := .playing, count := 1, timersStarted := 0 } =
      some { lstate := .ended, count := 0, timersStarted := 1 } ∧
    0 < endLevelDelay := by
  constructor
  · rfl
  · norm_num [endLevelDelay]

/-- C7 (amended): when the count reaches 0 while `Playing`, the completion
delay is started and the state becomes `Ended` immediately; `EndLevel` is
emitted exactly when the delay has elapsed; consuming `EndLevel` for
`Default(id)` spawns `Default(id+1)` and despawns the current instance when
it exists, emits `EndGame` otherwise, and `EndGame` moves to the terminal
end screen; a level with no `Level` identity returns to the editor or the
level-select screen. -/
theorem C7_level_completion_flow :
    (∀ c t, decreaseParticleCount c { lstate := .playing, count := c, timersStarted := t } =
      some { lstate := .ended, count := 0, timersStarted := t + 1 }) ∧
    (∀ delta r : ℚ, (tickEndLevelTimer delta r).2 = true ↔ r ≤ delta) ∧
    (∀ ctx id, ctx.level = some (.defaultL id) → id + 1 < ctx.defaultLen →
      endLevel true ctx = some (.advance (id + 1))) ∧
    (∀ ctx id, ctx.level = some (.defaultL id) → ctx.defaultLen ≤ id + 1 →
      endLevel true ctx = some .endGameEvent) ∧
    (endGame true = some .endScreen) ∧
    (∀ ctx, ctx.level = Option.none →
      endLevel true ctx = some (.toScreen (if ctx.editing then .editor else .levels))) := by
  refine ⟨?_, ?_, ?_, ?_, rfl, ?_⟩
  · intro c t
    simp [decreaseParticleCount]
  · intro delta r
    simp only [tickEndLevelTimer]
    split <;> rename_i hcond
    · simpa [sub_nonpos] using hcond
    · simp only [sub_nonpos] at hcond
      simp [hcond]
  · intro ctx id hid hlen
    simp [endLevel, hid, Nat.not_le.mpr hlen]
  · intro ctx id hid hlen
    simp [endLevel, hid, hlen]
  · intro ctx hid
    simp [endLevel, hid]

/-- C7 witness: a two-level game sitting on `Default(0)` advances to
`Default(1)` and despawns the finished instance. -/
theorem C7_level_completion_flow_witness :
    endLevel true { level := some (.defaultL 0), defaultLen := 2, editing := false } =
      some (.advance 1) :=
  C7_level_completion_flow.2.2.1 _ 0 rfl (by decide)

/-! ## Claim C8 -/

/-- C8 counterexample: the claim says that while the override is `Some(X)`
the observed physics time scale is `X` unconditionally.  With the override
set to `Some(Normal)` (observed scale 1), a player-particle impact — the
gameplay action that sets the automatic slowed value — writes
`time_speed.slow` straight into the physics timestep, so the observed scale
becomes 1/10 while the override is still present. -/
theorem C8_counterexample_impact_bypasses_override :
    exOverrideState.override = some .normal ∧
    exOverrideState.observed = TimeScaleKind.normal.value ∧
    (playerParticleCollision false TimeScaleKind.slowed.value 5 exOverrideState).1.override =
      some .normal ∧
    (playerParticleCollision false TimeScaleKind.slowed.value 5 exOverrideState).1.observed ≠
      TimeScaleKind.normal.value := by
  refine ⟨rfl, rfl, rfl, ?_⟩
  simp only [playerParticleCollision, exOverrideState, TimeScaleKind.value]
  norm_num

/-- C8 (amended): the override takes precedence over automatic values set
through `SetTimeScale` events — storing `Y` while `Some(X)` is active has
no visible effect and clearing the override then makes the observed scale
`Y` — but the `player_particle_collision` observer writes the slowed scale
directly into the physics timestep, changing the observed scale even while
an override is present (and without updating the stored automatic value). -/
theorem C8_override_precedence_and_bypass :
    (∀ st X Y,
      (setTimeScaleOverride (some X) st).observed = X.value ∧
      (setTimeScale Y (setTimeScaleOverride (some X) st)).observed = X.value ∧
      (setTimeScale Y (setTimeScaleOverride (some X) st)).timeScale = Y ∧
      (setTimeScaleOverride Option.none
        (setTimeScale Y (setTimeScaleOverride (some X) st))).observed = Y.value) ∧
    (∀ (slow : ℚ) t st,
      (playerParticleCollision false slow t st).1.observed = slow ∧
      (playerParticleCollision false slow t st).1.override = st.override ∧
      (playerParticleCollision false slow t st).1.timeScale = st.timeScale) := by
  constructor
  · intro st X Y
    refine ⟨rfl, ?_, rfl, ?_⟩ <;> simp [setTimeScale, setTimeScaleOverride]
  · intro slow t st
    exact ⟨rfl, rfl, rfl⟩

/-! ## Claim C9 -/

/-- C9: the claim says every loaded custom level appears in the lookup
table keyed by its embedded name.  `initialize_level_assets` takes the
`default` handle list twice (`std::mem::take(&mut level_handles.default)`
on both lines), so the custom table is built from the emptied `default`
field: with custom level "mylevel" loaded under handle 5, the resulting
table is empty, the default list is still correctly sorted by numeric name,
and `spawn_level(Level::Custom("mylevel"))` aborts on its unwrap. -/
theorem C9_custom_levels_lost_by_double_take :
    initLevelAssets exStore exHandles = some { default := [0, 1], custom := [] } ∧
    spawnLevel { default := [0, 1], custom := [] } (.customL "mylevel") = Option.none := by
  constructor <;> rfl

/-! ## Claim C10 -/

/-- C10: consuming `EndLevel` while the level entity carries
`Level::Custom(name)` reaches the `else` arm of `end_level`, which aborts
the process (the Rust source raises "Not implemented.") instead of
advancing, ending the game, or returning to a menu. -/
theorem C10_custom_level_end_aborts (ctx : EndLevelCtx) (name : String)
    (h : ctx.level = some (.customL name)) :
    endLevel true ctx = Option.none := by
  simp [endLevel, h]

/-- C10 witness: ending a played `Custom("mylevel")` instance aborts. -/
theorem C10_custom_level_end_aborts_witness :
    endLevel true { level := some (.customL "mylevel"), defaultLen := 2, editing := false } =
      Option.none :=
  C10_custom_level_end_aborts _ "mylevel" rfl

end BevyJam
